import Mathlib

/-!
Verification development for the `ayunda` transaction-recording bot
(`src/main.go`).  The per-user dialog state machine, its validation
rules, the transaction store and the monthly summary are embedded
shallowly: pure Lean functions mirror the Go functions of the source,
stateful code is explicit state passing over an `AppState`, and the
environment (clock, database outcomes, report scripts) is passed as an
explicit `Env` value.  Machine floats (`float64`) are modelled by exact
fractions extended with the IEEE special values.
-/

set_option maxRecDepth 8000
set_option exponentiation.threshold 1100

namespace Ayunda

/-- An exact fraction `num / den` (den kept positive, not reduced; kept
raw so that all arithmetic is structural and reduces inside the
kernel). -/
structure Frac where
  num : ℤ
  den : ℕ
deriving DecidableEq, Repr

/-- The rational value a `Frac` denotes. -/
def Frac.val (q : Frac) : ℚ := (q.num : ℚ) / (q.den : ℚ)

/-- Negation of a fraction. -/
def Frac.neg (q : Frac) : Frac := ⟨-q.num, q.den⟩

/-- Exact addition of fractions. -/
def Frac.add (a b : Frac) : Frac := ⟨a.num * b.den + b.num * a.den, a.den * b.den⟩

/-- Exact subtraction of fractions. -/
def Frac.sub (a b : Frac) : Frac := ⟨a.num * b.den - b.num * a.den, a.den * b.den⟩

/-- Model of a Go `float64` value: an exact fraction for finite values,
plus the IEEE special values NaN, +Inf and -Inf.  Finite values are kept
exact rather than rounded to binary; the only comparison the source
performs on amounts is `amount <= 0`, whose outcome agrees with the
rounded-float one on every value the parser can return. -/
inductive GoFloat where
  | finite (q : Frac)
  | nan
  | posInf
  | negInf
deriving DecidableEq, Repr

/-- The Go comparison `x <= 0` on a `float64`, as in `processAmount`.
Every comparison with NaN is false. -/
def GoFloat.le0 : GoFloat → Bool
  | .finite q => decide (q.num ≤ 0)
  | .nan => false
  | .posInf => false
  | .negInf => true

/-- IEEE-style addition on the float model (used for SQL `SUM`). -/
def GoFloat.add : GoFloat → GoFloat → GoFloat
  | .nan, _ => .nan
  | _, .nan => .nan
  | .posInf, .negInf => .nan
  | .negInf, .posInf => .nan
  | .posInf, _ => .posInf
  | _, .posInf => .posInf
  | .negInf, _ => .negInf
  | _, .negInf => .negInf
  | .finite a, .finite b => .finite (a.add b)

/-- IEEE-style subtraction on the float model (for `balance`). -/
def GoFloat.sub : GoFloat → GoFloat → GoFloat
  | .nan, _ => .nan
  | _, .nan => .nan
  | .posInf, .posInf => .nan
  | .negInf, .negInf => .nan
  | .posInf, _ => .posInf
  | _, .posInf => .negInf
  | .negInf, _ => .negInf
  | _, .negInf => .posInf
  | .finite a, .finite b => .finite (a.sub b)

/-- ASCII decimal digit test. -/
def isDigitCh (c : Char) : Bool := decide ('0' ≤ c) && decide (c ≤ '9')

/-- Numeric value of a digit list, most significant first. -/
def digitsVal (ds : List Char) : ℕ :=
  ds.foldl (fun a c => a * 10 + (c.toNat - 48)) 0

/-- Hexadecimal digit test, case-insensitive (Go `readFloat`'s
`hex && 'a' <= lower(c) && lower(c) <= 'f'` together with the decimal
digits). -/
def isHexDigitCh (c : Char) : Bool :=
  isDigitCh c || (decide ('a' ≤ c.toLower) && decide (c.toLower ≤ 'f'))

/-- Numeric value of one decimal or hexadecimal digit character. -/
def digitChVal (c : Char) : ℕ :=
  if isDigitCh c then c.toNat - 48 else c.toLower.toNat - 87

/-- Numeric value of a digit-character list in the given base, most
significant first. -/
def digitsValBase (base : ℕ) (ds : List Char) : ℕ :=
  ds.foldl (fun a c => a * base + digitChVal c) 0

/-- Exponent suffix of a Go float literal: empty is allowed only when
the exponent is optional (decimal `e`, not hexadecimal `p`) and means
exponent 0; otherwise the exponent character (case-insensitive), an
optional sign and at least one decimal digit, consuming the whole
remainder — Go `readFloat`'s exponent parse. -/
def parseExpPartCh (expCh : Char) (required : Bool) : List Char → Option ℤ
  | [] => if required then none else some 0
  | c :: rest =>
    if c.toLower = expCh then
      match rest with
      | '+' :: ds => if ds ≠ [] ∧ ds.all isDigitCh then some (digitsVal ds) else none
      | '-' :: ds => if ds ≠ [] ∧ ds.all isDigitCh then some (-(digitsVal ds : ℤ)) else none
      | ds => if ds ≠ [] ∧ ds.all isDigitCh then some (digitsVal ds) else none
    else none

/-- Exact value of a scanned mantissa and exponent, as a fraction: the
digits (base `digBase`) divided by `expBase ^ (scale * #fracDs)` and
scaled by `expBase ^ e`.  Decimal literals use base 10 with one power of
10 per fraction digit; hexadecimal literals use digit base 16 with
exponent base 2 and four bits per fraction digit. -/
def mantissaValBase (digBase expBase scale : ℕ) (intDs fracDs : List Char) (e : ℤ) : Frac :=
  let num : ℤ := (digitsValBase digBase (intDs ++ fracDs) : ℕ)
  if 0 ≤ e then ⟨num * expBase ^ e.toNat, expBase ^ (scale * fracDs.length)⟩
  else ⟨num, expBase ^ (scale * fracDs.length) * expBase ^ (-e).toNat⟩

/-- One unsigned mantissa-with-exponent, in decimal or hexadecimal:
digits of the base, an optional point with further digits, at least one
digit overall, then the exponent suffix (mandatory binary `p` exponent
for hexadecimal, optional decimal `e` exponent otherwise). -/
def parseMantissa (hex : Bool) (cs : List Char) : Option Frac :=
  let isDig : Char → Bool := if hex then isHexDigitCh else isDigitCh
  let intDs := cs.takeWhile isDig
  let rest := cs.drop intDs.length
  match rest with
  | '.' :: afterPoint =>
    let fracDs := afterPoint.takeWhile isDig
    let rest2 := afterPoint.drop fracDs.length
    if intDs = [] ∧ fracDs = [] then none
    else if hex then (parseExpPartCh 'p' true rest2).map (mantissaValBase 16 2 4 intDs fracDs)
    else (parseExpPartCh 'e' false rest2).map (mantissaValBase 10 10 1 intDs fracDs)
  | _ =>
    if intDs = [] then none
    else if hex then (parseExpPartCh 'p' true rest).map (mantissaValBase 16 2 4 intDs [])
    else (parseExpPartCh 'e' false rest).map (mantissaValBase 10 10 1 intDs [])

/-- Unsigned Go float literal: a `0x`/`0X` prefix with at least one
further character selects the hexadecimal form (Go `readFloat`'s
`i+2 < len(s)` prefix test), anything else is decimal. -/
def parseUnsignedNum (cs : List Char) : Option Frac :=
  match cs with
  | '0' :: x :: c2 :: rest =>
    if x.toLower = 'x' then parseMantissa true (c2 :: rest)
    else parseMantissa false cs
  | _ => parseMantissa false cs

/-- Signed Go float literal. -/
def parseSignedNum : List Char → Option Frac
  | '+' :: rest => parseUnsignedNum rest
  | '-' :: rest => (parseUnsignedNum rest).map Frac.neg
  | cs => parseUnsignedNum cs

/-- Character classes tracked by Go's `underscoreOK` scan: the start of
the number, a digit (or base prefix), an underscore, or any other
character. -/
inductive SawClass where
  | start
  | digit
  | underscore
  | other
deriving DecidableEq, Repr

/-- The scan loop of Go's `underscoreOK`: every underscore must follow
and be followed by a digit (of the active base), and the string must not
end in an underscore. -/
def underscoreOKLoop (hex : Bool) : List Char → SawClass → Bool
  | [], saw => decide (saw ≠ .underscore)
  | c :: rest, saw =>
    if isDigitCh c || (hex && isHexDigitCh c) then underscoreOKLoop hex rest .digit
    else if c = '_' then
      if saw = .digit then underscoreOKLoop hex rest .underscore else false
    else if saw = .underscore then false
    else underscoreOKLoop hex rest .other

/-- Go's `strconv.underscoreOK`: after an optional sign and an optional
`0b`/`0o`/`0x` base prefix (which counts as a digit), underscores may
appear only between digits. -/
def underscoreOK (cs0 : List Char) : Bool :=
  let cs1 := match cs0 with
    | '+' :: rest => rest
    | '-' :: rest => rest
    | cs => cs
  match cs1 with
  | '0' :: b :: rest =>
    if b.toLower = 'b' ∨ b.toLower = 'o' ∨ b.toLower = 'x' then
      underscoreOKLoop (b.toLower = 'x') rest .digit
    else underscoreOKLoop false cs1 .start
  | _ => underscoreOKLoop false cs1 .start

/-- The special values accepted by Go's `strconv.ParseFloat`:
case-insensitive `inf`/`infinity` with optional sign, and unsigned
case-insensitive `nan`. -/
def parseSpecial (s : String) : Option GoFloat :=
  let l := String.mk (s.toList.map Char.toLower)
  if l = "nan" then some .nan
  else if l = "inf" ∨ l = "infinity" ∨ l = "+inf" ∨ l = "+infinity" then some .posInf
  else if l = "-inf" ∨ l = "-infinity" then some .negInf
  else none

/-- Whether `(2^54 - 1) * 2^970 ≤ |q|`, the magnitude at which
`float64` rounding reaches infinity and `ParseFloat` reports a range
error. -/
def float64Overflows (q : Frac) : Bool :=
  decide ((((2 ^ 54 - 1) * 2 ^ 970 : ℕ) : ℤ) * q.den ≤ |q.num|)

/-- Whether `|q| ≤ 2⁻¹⁰⁷⁵`; magnitudes at or below that bound round to
(signed) zero in `float64`. -/
def float64UnderflowsToZero (q : Frac) : Bool :=
  decide (|q.num| * ((2 ^ 1075 : ℕ) : ℤ) ≤ (q.den : ℤ))

/-- Model of Go's `strconv.ParseFloat(s, 64)`, returning `none` exactly
when the call returns a non-nil error: the special values, then decimal
and hexadecimal literals with digit-separating underscores (skipped
while scanning, their placement validated by `underscoreOK`, as in Go's
`readFloat`).  Values past the `float64` range yield a range error
(`none`); positive magnitudes that underflow to zero are returned as
`finite ⟨0, 1⟩`, matching the zero result Go delivers there. -/
def parseFloat (s : String) : Option GoFloat :=
  match parseSpecial s with
  | some v => some v
  | none =>
    let cs := s.toList
    if cs.contains '_' && !underscoreOK cs then none
    else
      match parseSignedNum (cs.filter fun c => c != '_') with
      | none => none
      | some q =>
        if float64Overflows q then none
        else if float64UnderflowsToZero q then some (.finite ⟨0, 1⟩)
        else some (.finite q)

/-- The per-user dialog state, Go struct `TransactionState`.  `step` is
the Go string tag; the zero value of a missing field is `""` or `0.0`. -/
structure TransactionState where
  userID : ℤ
  step : String
  transactionType : String
  category : String
  amount : GoFloat
  description : String
deriving DecidableEq, Repr

/-- A persisted row of the `transactions` table (the auto-assigned `id`
is left to the store). -/
structure Row where
  rowType : String
  category : String
  amount : GoFloat
  description : String
  createdAt : String
deriving DecidableEq, Repr

/-- The character of the last decimal digit of `n`. -/
def digitCh (n : ℕ) : Char := Char.ofNat (48 + n % 10)

/-- Fuel-driven digit extraction (structural recursion, so that concrete
instances reduce inside the kernel). -/
def natDigitsAux (fuel : ℕ) (n : ℕ) : List Char :=
  match fuel with
  | 0 => []
  | fuel + 1 => if n < 10 then [digitCh n] else natDigitsAux fuel (n / 10) ++ [digitCh n]

/-- Decimal digit characters of a natural number, most significant
first; always nonempty. -/
def natDigits (n : ℕ) : List Char := natDigitsAux (n + 1) n

/-- Decimal rendering of a natural number. -/
def natStr (n : ℕ) : String := String.mk (natDigits n)

/-- Left-pad the decimal rendering of `n` with zeros to width `w`
(Go's zero-padded verbs such as `01` and `2006`). -/
def padNat (w n : ℕ) : List Char :=
  List.replicate (w - (natDigits n).length) '0' ++ natDigits n

/-- Go `fmt` rendering `%.2f` of the float model: two fixed decimals for
finite values (rounding to the nearest hundredth), the special spellings
otherwise. -/
def fmt2 : GoFloat → String
  | .nan => "NaN"
  | .posInf => "+Inf"
  | .negInf => "-Inf"
  | .finite q =>
    let n : ℤ := Int.fdiv (q.num * 200 + q.den) (2 * q.den)
    let m := n.natAbs
    (if n < 0 then "-" else "") ++ natStr (m / 100) ++ "." ++ String.mk (padNat 2 (m % 100))

/-- An instant of `time.Time`: seconds since the Unix epoch plus a
fractional-second part in nanoseconds. -/
structure GoTime where
  sec : ℤ
  nsec : ℕ
deriving DecidableEq, Repr

/-- Civil date `(year, month, day)` of a day count from 1970-01-01
(the standard era-based conversion used by civil-calendar libraries). -/
def civilFromDays (z0 : ℤ) : ℤ × ℕ × ℕ :=
  let z := z0 + 719468
  let era := z / 146097
  let doe := (z % 146097).toNat
  let yoe := (doe - doe / 1460 + doe / 36524 - doe / 146096) / 365
  let doy := doe - (365 * yoe + yoe / 4 - yoe / 100)
  let mp := (5 * doy + 2) / 153
  let d := doy - (153 * mp + 2) / 5 + 1
  let m := if mp < 10 then mp + 3 else mp - 9
  let y := era * 400 + yoe + (if m ≤ 2 then 1 else 0)
  (y, m, d)

/-- The day-of-era of a day count (proof-side closed form of the
`doe` of `civilFromDays`). -/
def doeOf (z0 : ℤ) : ℕ := ((z0 + 719468) % 146097).toNat

/-- The year-of-era of a day count (closed form of `yoe`). -/
def yoeOf (z0 : ℤ) : ℕ :=
  (doeOf z0 - doeOf z0 / 1460 + doeOf z0 / 36524 - doeOf z0 / 146096) / 365

/-- The day-of-year (March-based) of a day count (closed form of
`doy`). -/
def doyOf (z0 : ℤ) : ℕ := doeOf z0 - (365 * yoeOf z0 + yoeOf z0 / 4 - yoeOf z0 / 100)

/-- The March-based month index of a day count (closed form of `mp`). -/
def mpOf (z0 : ℤ) : ℕ := (5 * doyOf z0 + 2) / 153

/-- Civil year of an epoch-second instant. -/
def yearOf (t : ℤ) : ℤ := (civilFromDays (t / 86400)).1

/-- Civil month (1..12) of an epoch-second instant. -/
def monthOfSec (t : ℤ) : ℕ := (civilFromDays (t / 86400)).2.1

/-- Civil day of month of an epoch-second instant. -/
def dayOfSec (t : ℤ) : ℕ := (civilFromDays (t / 86400)).2.2

/-- Year rendering of Go's `2006` verb: four zero-padded digits, a sign
for negative years. -/
def yearChars (y : ℤ) : List Char :=
  if y < 0 then '-' :: padNat 4 y.natAbs else padNat 4 y.toNat

/-- Go `Format("2006-01-02 15:04:05")` of an epoch-second instant:
whole seconds only, so the `nsec` part of a `GoTime` never appears. -/
def dateTimeStr (t : ℤ) : String :=
  let ymd := civilFromDays (t / 86400)
  let sod := (t % 86400).toNat
  String.mk (yearChars ymd.1 ++ '-' :: padNat 2 ymd.2.1 ++ '-' :: padNat 2 ymd.2.2 ++
    ' ' :: padNat 2 (sod / 3600) ++ ':' :: padNat 2 (sod % 3600 / 60) ++ ':' :: padNat 2 (sod % 60))

/-- English month names, for Go's `January` verb. -/
def monthName (m : ℕ) : String :=
  match m with
  | 1 => "January" | 2 => "February" | 3 => "March" | 4 => "April"
  | 5 => "May" | 6 => "June" | 7 => "July" | 8 => "August"
  | 9 => "September" | 10 => "October" | 11 => "November" | 12 => "December"
  | _ => ""

/-- Go `Format("January 2006")` of an epoch-second instant. -/
def monthYearStr (t : ℤ) : String :=
  let ymd := civilFromDays (t / 86400)
  monthName ymd.2.1 ++ " " ++ String.mk (yearChars ymd.1)

/-- Go `Format("01")`: the zero-padded two-digit month. -/
def month2Str (t : ℤ) : String := String.mk (padNat 2 (monthOfSec t))

/-- Trailing time-of-day part accepted after a date in a stored
timestamp string: nothing, or a space and `HH:MM:SS`. -/
def timeRestOK : List Char → Bool
  | [] => true
  | ' ' :: h1 :: h2 :: ':' :: n1 :: n2 :: ':' :: s1 :: s2 :: [] =>
    [h1, h2, n1, n2, s1, s2].all isDigitCh
  | _ => false

/-- SQLite `strftime('%m', s)`: the two month digits of a
`YYYY-MM-DD`-shaped timestamp string, `NULL` (here `none`) on strings
that do not parse as a datetime. -/
def sqlMonthOf (s : String) : Option String :=
  match s.toList with
  | y1 :: y2 :: y3 :: y4 :: '-' :: m1 :: m2 :: '-' :: d1 :: d2 :: rest =>
    if [y1, y2, y3, y4, m1, m2, d1, d2].all isDigitCh && timeRestOK rest then
      some (String.mk [m1, m2])
    else none
  | _ => none

/-- Rows retained by the summary query's `WHERE` clause: stored
timestamp month equal to the given two-digit month. -/
def filterMonth (curMonth : String) (store : List Row) : List Row :=
  store.filter (fun r => sqlMonthOf r.createdAt = some curMonth)

/-- SQL `SUM(amount)` over the rows of one type (0 when none). -/
def sumAmounts (rows : List Row) (t : String) : GoFloat :=
  ((rows.filter (fun r => r.rowType = t)).map Row.amount).foldl GoFloat.add (.finite ⟨0, 1⟩)

/-- The distinct `type` values of a row list, in order of first
appearance (SQL `GROUP BY type`). -/
def distinctTypes (rows : List Row) : List String :=
  rows.foldl (fun acc r => if r.rowType ∈ acc then acc else acc ++ [r.rowType]) []

/-- Result set of `SELECT type, SUM(amount) ... GROUP BY type`: one
`(type, total)` row per distinct type. -/
def groupRows (rows : List Row) : List (String × GoFloat) :=
  (distinctTypes rows).map (fun t => (t, sumAmounts rows t))

/-- One iteration of the scan loop of `showSummary`: assign the row
total to `incomeTotal` on type `income`, to `expenseTotal` on type
`expense`, and ignore any other type. -/
def scanRow (acc : GoFloat × GoFloat) (r : String × GoFloat) : GoFloat × GoFloat :=
  if r.1 = "income" then (r.2, acc.2)
  else if r.1 = "expense" then (acc.1, r.2)
  else acc

/-- The scan loop of `showSummary`, starting from `0.0`/`0.0`. -/
def summaryTotals (rows : List (String × GoFloat)) : GoFloat × GoFloat :=
  rows.foldl scanRow (.finite ⟨0, 1⟩, .finite ⟨0, 1⟩)

/-- Declarative description of one summary total: the SQL sum of the
amounts of the rows of the given month whose `type` is exactly `t`. -/
def sumOfType (curMonth t : String) (store : List Row) : GoFloat :=
  ((store.filter fun r => sqlMonthOf r.createdAt = some curMonth ∧ r.rowType = t).map
    Row.amount).foldl GoFloat.add (.finite ⟨0, 1⟩)

/-- Outbound calls to the chat transport.  A keyboard is ordered rows of
`(label, value)` buttons. -/
inductive Effect where
  | sendMsg (chatID : ℤ) (text : String)
  | sendKeyboard (chatID : ℤ) (text : String) (buttons : List (List (String × String)))
  | editMsg (chatID : ℤ) (messageID : ℤ) (text : String)
  | editKeyboard (chatID : ℤ) (messageID : ℤ) (text : String)
      (buttons : List (List (String × String)))
deriving DecidableEq, Repr

/-- Startup configuration: the single authorized user and the configured
category list. -/
structure Config where
  allowedUserID : ℤ
  categories : List String
deriving DecidableEq, Repr

/-- Outcome of the `INSERT` attempt in `processDescription`:
`db.Prepare` failing, `stmt.Exec` failing, or success. -/
inductive InsertOutcome where
  | prepareError
  | execError
  | ok
deriving DecidableEq, Repr

/-- The environment an event is processed in: the wall clock (with the
local zone's offset from UTC, for `Format("January 2006")`), and the
outcomes of the fallible external calls. -/
structure Env where
  now : GoTime
  localOffset : ℤ
  insertOutcome : InsertOutcome
  querySucceeds : Bool
  latestReport : Option String
  weeklyReport : Option String
deriving DecidableEq, Repr

/-- An inbound text message: `message.From.ID`, `message.Chat.ID`, the
raw text, and the value `message.Command()` returns (the empty string
for a non-command). -/
structure Message where
  fromID : ℤ
  chatID : ℤ
  text : String
  command : String
deriving DecidableEq, Repr

/-- A button-selection callback: sender, the chat and message it edits,
and the opaque `Data` payload. -/
structure CallbackQuery where
  fromID : ℤ
  chatID : ℤ
  messageID : ℤ
  data : String
deriving DecidableEq, Repr

/-- One association of the `userStates` map. -/
abbrev StateMap := List (ℤ × TransactionState)

/-- Go map read `userStates[userID]`. -/
def lookupState : StateMap → ℤ → Option TransactionState
  | [], _ => none
  | (k, v) :: rest, uid => if k = uid then some v else lookupState rest uid

/-- Go map write `userStates[userID] = state` (replace or add). -/
def setState : StateMap → ℤ → TransactionState → StateMap
  | [], uid, ts => [(uid, ts)]
  | (k, v) :: rest, uid, ts =>
    if k = uid then (k, ts) :: rest else (k, v) :: setState rest uid ts

/-- Go `delete(userStates, userID)`. -/
def delState : StateMap → ℤ → StateMap
  | [], _ => []
  | (k, v) :: rest, uid => if k = uid then delState rest uid else (k, v) :: delState rest uid

/-- The whole mutable state of the process: the session map and the
transaction store. -/
structure AppState where
  userStates : StateMap
  store : List Row
deriving DecidableEq, Repr

/-- Go `startTransaction`: install a fresh `TransactionState` at step
`SELECT_TYPE` (all other fields at their zero values) and present the
income/expense keyboard. -/
def startTransaction (chatID userID : ℤ) (st : AppState) : AppState × List Effect :=
  let fresh : TransactionState :=
    { userID := userID, step := "SELECT_TYPE", transactionType := "", category := "",
      amount := .finite ⟨0, 1⟩, description := "" }
  ({ st with userStates := setState st.userStates userID fresh },
   [.sendKeyboard chatID "Please choose the type of transaction:"
      [[("Income", "income"), ("Expense", "expense")]]])

/-- Go `processTransactionType`: record the callback payload as the
transaction type, move to `SELECT_CATEGORY`, and present the category
keyboard. -/
def processTransactionType (cfg : Config) (c : CallbackQuery) (ts : TransactionState) :
    TransactionState × List Effect :=
  let ts1 := { ts with transactionType := c.data, step := "SELECT_CATEGORY" }
  (ts1,
   [.editKeyboard c.chatID c.messageID
      ("You selected " ++ ts1.transactionType ++ ". Choose a category:")
      (cfg.categories.map (fun cat => [(cat, cat)]))])

/-- Go `processCategory`: record the callback payload as the category
and move to `ENTER_AMOUNT`. -/
def processCategory (c : CallbackQuery) (ts : TransactionState) :
    TransactionState × List Effect :=
  let ts1 := { ts with category := c.data, step := "ENTER_AMOUNT" }
  (ts1,
   [.editMsg c.chatID c.messageID
      ("Selected category: " ++ ts1.category ++ ". Enter the transaction amount.")])

/-- Go `processAmount`: `strconv.ParseFloat` the text and reject on a
parse error or a value `<= 0`; otherwise record the amount and move to
`ENTER_DESCRIPTION`. -/
def processAmount (m : Message) (ts : TransactionState) : TransactionState × List Effect :=
  match parseFloat m.text with
  | none => (ts, [.sendMsg m.chatID "Invalid amount. Please enter a positive number."])
  | some v =>
    if v.le0 then (ts, [.sendMsg m.chatID "Invalid amount. Please enter a positive number."])
    else
      ({ ts with amount := v, step := "ENTER_DESCRIPTION" },
       [.sendMsg m.chatID "Enter a description for the transaction (max 100 characters)."])

/-- Go `processDescription`: reject texts beyond 100 bytes (`len` on a
Go string counts UTF-8 bytes); otherwise store the description in the
state, then attempt the `INSERT` with the current UTC+7 timestamp.  On a
prepare or exec failure the (description-updated) state stays in the
map; on success the row is appended and the state deleted. -/
def processDescription (env : Env) (m : Message) (ts : TransactionState) (st : AppState) :
    AppState × List Effect :=
  if m.text.utf8ByteSize > 100 then
    (st, [.sendMsg m.chatID "Description too long. Please keep it under 100 characters."])
  else
    let ts1 := { ts with description := m.text }
    let createdAt := dateTimeStr (env.now.sec + 7 * 60 * 60)
    match env.insertOutcome with
    | .prepareError =>
      ({ st with userStates := setState st.userStates ts.userID ts1 },
       [.sendMsg m.chatID "Failed to prepare transaction."])
    | .execError =>
      ({ st with userStates := setState st.userStates ts.userID ts1 },
       [.sendMsg m.chatID "Failed to save transaction."])
    | .ok =>
      ({ userStates := delState (setState st.userStates ts.userID ts1) ts.userID,
         store := st.store ++
           [{ rowType := ts1.transactionType, category := ts1.category, amount := ts1.amount,
              description := ts1.description, createdAt := createdAt }] },
       [.sendMsg m.chatID "Transaction added successfully!"])

/-- Go `showSummary`: group-by-type monthly totals for the current UTC
month, rendered to two decimals under a local-time month/year header. -/
def showSummary (env : Env) (chatID : ℤ) (st : AppState) : AppState × List Effect :=
  let curMonth := month2Str env.now.sec
  if env.querySucceeds then
    let totals := summaryTotals (groupRows (filterMonth curMonth st.store))
    let balance := totals.1.sub totals.2
    let msg :=
      "Monthly Summary Report for " ++ monthYearStr (env.now.sec + env.localOffset) ++ ":\n\n" ++
      "Total Income: " ++ fmt2 totals.1 ++ "\nTotal Expense: " ++ fmt2 totals.2 ++
      "\n\nBalance: " ++ fmt2 balance
    (st, [.sendMsg chatID msg])
  else
    (st, [.sendMsg chatID "Error retrieving transactions."])

/-- Go `get_latest_report`: relay the script output, or the fixed
failure message when the script fails. -/
def getLatestReport (env : Env) (chatID : ℤ) (st : AppState) : AppState × List Effect :=
  match env.latestReport with
  | some out => (st, [.sendMsg chatID out])
  | none => (st, [.sendMsg chatID "Failed to execute the report."])

/-- Go `get_weekly_expense_report`: as `getLatestReport` for the second
script. -/
def getWeeklyExpenseReport (env : Env) (chatID : ℤ) (st : AppState) : AppState × List Effect :=
  match env.weeklyReport with
  | some out => (st, [.sendMsg chatID out])
  | none => (st, [.sendMsg chatID "Failed to execute the report."])

/-- Go `handleMessage`: authorization check, then command dispatch, then
step dispatch for free text; a pointer mutation of the looked-up state
is modelled by writing the updated state back at the same key. -/
def handleMessage (cfg : Config) (env : Env) (st : AppState) (m : Message) :
    AppState × List Effect :=
  if m.fromID ≠ cfg.allowedUserID then
    (st, [.sendMsg m.chatID "You are not authorized to use this bot."])
  else
    match m.command with
    | "add" => startTransaction m.chatID m.fromID st
    | "summary" => showSummary env m.chatID st
    | "get_latest_report" => getLatestReport env m.chatID st
    | "get_weekly_expense" => getWeeklyExpenseReport env m.chatID st
    | _ =>
      match lookupState st.userStates m.fromID with
      | some ts =>
        match ts.step with
        | "ENTER_AMOUNT" =>
          let r := processAmount m ts
          ({ st with userStates := setState st.userStates m.fromID r.1 }, r.2)
        | "ENTER_DESCRIPTION" => processDescription env m ts st
        | _ => (st, [])
      | none => (st, [.sendMsg m.chatID "I don't understand that command."])

/-- Go `handleCallbackQuery`: authorization check, then step dispatch of
the selection payload. -/
def handleCallbackQuery (cfg : Config) (_env : Env) (st : AppState) (c : CallbackQuery) :
    AppState × List Effect :=
  if c.fromID ≠ cfg.allowedUserID then
    (st, [.sendMsg c.chatID "You are not authorized to use this bot."])
  else
    match lookupState st.userStates c.fromID with
    | none => (st, [])
    | some ts =>
      match ts.step with
      | "SELECT_TYPE" =>
        let r := processTransactionType cfg c ts
        ({ st with userStates := setState st.userStates c.fromID r.1 }, r.2)
      | "SELECT_CATEGORY" =>
        let r := processCategory c ts
        ({ st with userStates := setState st.userStates c.fromID r.1 }, r.2)
      | _ => (st, [])

/-- An inbound update: a message or a callback query. -/
inductive Event where
  | msg (m : Message)
  | callback (c : CallbackQuery)
deriving DecidableEq, Repr

/-- One iteration of the update loop in `main`. -/
def stepEvent (cfg : Config) (env : Env) (st : AppState) (e : Event) : AppState × List Effect :=
  match e with
  | .msg m => handleMessage cfg env st m
  | .callback c => handleCallbackQuery cfg env st c

/-- The update loop over a finite event sequence, each event with its
own environment. -/
def runEvents (cfg : Config) : AppState → List (Env × Event) → AppState
  | st, [] => st
  | st, (env, e) :: rest => runEvents cfg (stepEvent cfg env st e).1 rest

/-- Sender identity of an event. -/
def Event.sender : Event → ℤ
  | .msg m => m.fromID
  | .callback c => c.fromID

/-- Chat the reply of an event goes to. -/
def Event.chat : Event → ℤ
  | .msg m => m.chatID
  | .callback c => c.chatID

/-- The `TransactionState` that `startTransaction` installs: step
`SELECT_TYPE`, all other accumulated fields at their zero values. -/
def freshState (uid : ℤ) : TransactionState :=
  { userID := uid, step := "SELECT_TYPE", transactionType := "", category := "",
    amount := .finite ⟨0, 1⟩, description := "" }

/-- The row committed by a successful `processDescription`. -/
def committedRow (ts : TransactionState) (text createdAt : String) : Row :=
  { rowType := ts.transactionType, category := ts.category, amount := ts.amount,
    description := text, createdAt := createdAt }

/-! ### Concrete fixtures used by witnesses and counterexamples -/

/-- A concrete configuration: user 42 is authorized. -/
def cfg0 : Config := { allowedUserID := 42, categories := ["Food", "Salary"] }

/-- A concrete instant: 2025-10-11 00:00:00 UTC, with a fractional
second. -/
def time0 : GoTime := { sec := 1760140800, nsec := 123456789 }

/-- A concrete benign environment (UTC+7 local zone, working store). -/
def env0 : Env :=
  { now := time0, localOffset := 25200, insertOutcome := .ok, querySucceeds := true,
    latestReport := none, weeklyReport := none }

/-- The environment with a failing statement preparation. -/
def envPrepFail : Env := { env0 with insertOutcome := .prepareError }

/-- A dialog waiting for the amount. -/
def tsAmount : TransactionState :=
  { userID := 42, step := "ENTER_AMOUNT", transactionType := "expense", category := "Food",
    amount := .finite ⟨0, 1⟩, description := "" }

/-- A dialog waiting for the description. -/
def tsDescr : TransactionState :=
  { tsAmount with step := "ENTER_DESCRIPTION", amount := .finite ⟨125, 10⟩ }

/-- A dialog waiting for the type selection. -/
def tsType : TransactionState :=
  { userID := 42, step := "SELECT_TYPE", transactionType := "", category := "",
    amount := .finite ⟨0, 1⟩, description := "" }

/-- A run of 51 two-byte characters: 51 characters but 102 UTF-8 bytes. -/
def longDescr : String := String.mk (List.replicate 51 'é')

/-- A store holding one income of 100.0 and one expense of 40.0, both in
October 2025 (the month of `time0`). -/
def exampleStore : List Row :=
  [{ rowType := "income", category := "Salary", amount := .finite ⟨100, 1⟩,
     description := "pay", createdAt := "2025-10-05 12:00:00" },
   { rowType := "expense", category := "Food", amount := .finite ⟨40, 1⟩,
     description := "groceries", createdAt := "2025-10-06 13:00:00" }]

/-- A same-month row whose type is neither `income` nor `expense`. -/
def rowOther : Row :=
  { rowType := "savings", category := "Food", amount := .finite ⟨7, 1⟩,
    description := "stash", createdAt := "2025-10-07 09:00:00" }

/-- A complete dialog of the authorized user: `/add`, select `income`,
select `Food`, amount `12.5`, description `lunch`. -/
def traceEvents : List (Env × Event) :=
  [(env0, .msg { fromID := 42, chatID := 5, text := "/add", command := "add" }),
   (env0, .callback { fromID := 42, chatID := 5, messageID := 9, data := "income" }),
   (env0, .callback { fromID := 42, chatID := 5, messageID := 9, data := "Food" }),
   (env0, .msg { fromID := 42, chatID := 5, text := "12.5", command := "" }),
   (env0, .msg { fromID := 42, chatID := 5, text := "lunch", command := "" })]

/-- A stored row is well-typed: its type is `income` or `expense` and
its category is one of the configured names. -/
def rowWellTyped (cfg : Config) (r : Row) : Bool :=
  (r.rowType == "income" || r.rowType == "expense") && decide (r.category ∈ cfg.categories)

/-- A dialog state is well-typed: past `SELECT_TYPE` its transaction
type is `income` or `expense`, and past `SELECT_CATEGORY` its category
is one of the configured names. -/
def stateWellTyped (cfg : Config) (ts : TransactionState) : Bool :=
  ((ts.step != "SELECT_CATEGORY" && ts.step != "ENTER_AMOUNT" &&
      ts.step != "ENTER_DESCRIPTION") ||
    (ts.transactionType == "income" || ts.transactionType == "expense")) &&
  ((ts.step != "ENTER_AMOUNT" && ts.step != "ENTER_DESCRIPTION") ||
    decide (ts.category ∈ cfg.categories))

/-- The typing invariant: every live dialog state and every stored row
is well-typed. -/
def typedInvariant (cfg : Config) (st : AppState) : Prop :=
  (∀ uid ts, lookupState st.userStates uid = some ts → stateWellTyped cfg ts = true) ∧
  (∀ r ∈ st.store, rowWellTyped cfg r = true)

/-- The callback payload of the event, if any, is one of the button
values the bot presented for the receiving dialog's current step
(`income`/`expense` buttons at `SELECT_TYPE`, the configured category
buttons at `SELECT_CATEGORY`). -/
def payloadFromButtons (cfg : Config) (st : AppState) : Event → Bool
  | .msg _ => true
  | .callback c =>
    match lookupState st.userStates c.fromID with
    | none => true
    | some ts =>
      (ts.step != "SELECT_TYPE" || (c.data == "income" || c.data == "expense")) &&
      (ts.step != "SELECT_CATEGORY" || decide (c.data ∈ cfg.categories))

/-- The condition `payloadFromButtons` holding at every step of an event trace. -/
def payloadsFromButtons (cfg : Config) : AppState → List (Env × Event) → Bool
  | _, [] => true
  | st, (env, e) :: rest =>
    payloadFromButtons cfg st e && payloadsFromButtons cfg (stepEvent cfg env st e).1 rest

/-! ### Digit-rendering lemmas -/

theorem natDigitsAux_irrel (fuel : ℕ) : ∀ fuel' n, n < fuel → n < fuel' →
    natDigitsAux fuel n = natDigitsAux fuel' n := by
  induction fuel with
  | zero => intro fuel' n h; omega
  | succ f ih =>
    intro fuel' n h h'
    match fuel', h' with
    | f' + 1, _ =>
      by_cases h10 : n < 10
      · simp [natDigitsAux, h10]
      · have hd : n / 10 < n := Nat.div_lt_self (by omega) (by omega)
        simp only [natDigitsAux, if_neg h10]
        rw [ih f' (n / 10) (by omega) (by omega)]

/-- The recursive unfolding of `natDigits`. -/
theorem natDigits_eq (n : ℕ) :
    natDigits n = if n < 10 then [digitCh n] else natDigits (n / 10) ++ [digitCh n] := by
  by_cases h10 : n < 10
  · simp [natDigits, natDigitsAux, h10]
  · show natDigitsAux (n + 1) n = _
    rw [show natDigitsAux (n + 1) n =
        (if n < 10 then [digitCh n] else natDigitsAux n (n / 10) ++ [digitCh n]) from rfl]
    rw [if_neg h10, if_neg h10,
      natDigitsAux_irrel n (n / 10 + 1) (n / 10) (by omega) (by omega)]
    rfl

/-! ### Lemmas about the session map -/

theorem lookupState_setState (m : StateMap) (k k' : ℤ) (v : TransactionState) :
    lookupState (setState m k v) k' = if k' = k then some v else lookupState m k' := by
  induction m with
  | nil =>
    by_cases h : k' = k
    · subst h; simp [setState, lookupState]
    · simp [setState, lookupState, h, Ne.symm h]
  | cons p rest ih =>
    obtain ⟨k0, v0⟩ := p
    by_cases h0 : k0 = k
    · subst h0
      by_cases h : k' = k0
      · subst h; simp [setState, lookupState]
      · simp [setState, lookupState, h, Ne.symm h]
    · by_cases h : k' = k0
      · simp [setState, lookupState, h0, h]
      · simp [setState, lookupState, h0, h, Ne.symm h, ih]

theorem setState_self (m : StateMap) (k : ℤ) (v : TransactionState)
    (h : lookupState m k = some v) : setState m k v = m := by
  induction m with
  | nil => simp [lookupState] at h
  | cons p rest ih =>
    obtain ⟨k0, v0⟩ := p
    by_cases h0 : k0 = k
    · subst h0
      simp [lookupState] at h
      simp [setState, h]
    · simp [lookupState, h0] at h
      simp [setState, h0, ih h]

theorem lookupState_delState (m : StateMap) (k k' : ℤ) :
    lookupState (delState m k) k' = if k' = k then none else lookupState m k' := by
  induction m with
  | nil =>
    by_cases h : k' = k
    · subst h; simp [delState, lookupState]
    · simp [delState, lookupState, h]
  | cons p rest ih =>
    obtain ⟨k0, v0⟩ := p
    by_cases h0 : k0 = k
    · subst h0
      by_cases h : k' = k0
      · subst h; simp [delState, lookupState, ih]
      · simp [delState, lookupState, ih, h, Ne.symm h]
    · by_cases h : k' = k0
      · simp [delState, lookupState, h0, h]
      · simp [delState, lookupState, h0, h, Ne.symm h, ih]


/-! ### C4 -/

/-- C4: an inbound event (message or callback) whose sender is not the
authorized identity yields exactly the rejection message and leaves the
whole application state — in particular the DialogState map — unchanged. -/
theorem c4_unauthorized_rejected (cfg : Config) (env : Env) (st : AppState) (e : Event)
    (h : e.sender ≠ cfg.allowedUserID) :
    stepEvent cfg env st e =
      (st, [.sendMsg e.chat "You are not authorized to use this bot."]) := by
  cases e with
  | msg m =>
    simp only [Event.sender] at h
    simp [stepEvent, handleMessage, Event.chat, h]
  | callback c =>
    simp only [Event.sender] at h
    simp [stepEvent, handleCallbackQuery, Event.chat, h]

/-- Witness for C4: user 7 is not user 42. -/
theorem c4_witness :
    stepEvent cfg0 env0 { userStates := [(42, tsAmount)], store := [] }
        (.msg { fromID := 7, chatID := 5, text := "/add", command := "add" }) =
      ({ userStates := [(42, tsAmount)], store := [] },
       [.sendMsg 5 "You are not authorized to use this bot."]) :=
  c4_unauthorized_rejected cfg0 env0 _ _ (by decide)

/-! ### C5 -/

/-- C5: the `/add` command from the authorized user replaces that user's
map entry (whatever the previous map was) by a fresh state at
`SELECT_TYPE` with empty type, category and description and zero amount,
and leaves the store alone. -/
theorem c5_add_fresh_state (cfg : Config) (env : Env) (st : AppState) (m : Message)
    (hAuth : m.fromID = cfg.allowedUserID) (hCmd : m.command = "add") :
    (handleMessage cfg env st m).1.userStates =
      setState st.userStates m.fromID (freshState m.fromID) ∧
    lookupState (handleMessage cfg env st m).1.userStates m.fromID =
      some (freshState m.fromID) ∧
    (handleMessage cfg env st m).1.store = st.store := by
  have hne : ¬m.fromID ≠ cfg.allowedUserID := by simpa using hAuth
  simp only [handleMessage, if_neg hne, hCmd]
  refine ⟨rfl, ?_, rfl⟩
  simp [startTransaction, lookupState_setState, freshState]

/-- Witness for C5: `/add` while a dialog is already at the description
step restarts it from scratch. -/
theorem c5_witness :
    (handleMessage cfg0 env0 { userStates := [(42, tsDescr)], store := [] }
        { fromID := 42, chatID := 5, text := "/add", command := "add" }).1.userStates =
      setState [(42, tsDescr)] 42 (freshState 42) ∧
    lookupState (handleMessage cfg0 env0 { userStates := [(42, tsDescr)], store := [] }
        { fromID := 42, chatID := 5, text := "/add", command := "add" }).1.userStates 42 =
      some (freshState 42) ∧
    (handleMessage cfg0 env0 { userStates := [(42, tsDescr)], store := [] }
        { fromID := 42, chatID := 5, text := "/add", command := "add" }).1.store = [] :=
  c5_add_fresh_state cfg0 env0 _ _ (by decide) rfl

/-! ### C8 -/

/-- C8: with the authorized sender, a selection callback arriving while
the dialog step is a text-input step, and a non-command text message
arriving while the dialog step is a selection step, change nothing and
send nothing. -/
theorem c8_routing_noop (cfg : Config) (env : Env) (st : AppState) :
    (∀ c : CallbackQuery, c.fromID = cfg.allowedUserID →
      ∀ ts, lookupState st.userStates c.fromID = some ts →
      ts.step = "ENTER_AMOUNT" ∨ ts.step = "ENTER_DESCRIPTION" →
      handleCallbackQuery cfg env st c = (st, [])) ∧
    (∀ m : Message, m.fromID = cfg.allowedUserID → m.command = "" →
      ∀ ts, lookupState st.userStates m.fromID = some ts →
      ts.step = "SELECT_TYPE" ∨ ts.step = "SELECT_CATEGORY" →
      handleMessage cfg env st m = (st, [])) := by
  constructor
  · intro c hAuth ts hLook hStep
    have hne : ¬c.fromID ≠ cfg.allowedUserID := by simpa using hAuth
    simp only [handleCallbackQuery, if_neg hne, hLook]
    rcases hStep with h | h <;> rw [h] <;> rfl
  · intro m hAuth hCmd ts hLook hStep
    have hne : ¬m.fromID ≠ cfg.allowedUserID := by simpa using hAuth
    simp only [handleMessage, if_neg hne, hCmd, hLook]
    rcases hStep with h | h <;> rw [h] <;> rfl

/-- Witness for C8: a callback at the amount step and a plain text at
the type-selection step are both no-ops. -/
theorem c8_witness :
    handleCallbackQuery cfg0 env0 { userStates := [(42, tsAmount)], store := [] }
      { fromID := 42, chatID := 5, messageID := 9, data := "income" } =
      ({ userStates := [(42, tsAmount)], store := [] }, []) ∧
    handleMessage cfg0 env0 { userStates := [(42, tsType)], store := [] }
      { fromID := 42, chatID := 5, text := "hello", command := "" } =
      ({ userStates := [(42, tsType)], store := [] }, []) :=
  ⟨(c8_routing_noop cfg0 env0 _).1 _ (by decide) tsAmount (by decide) (by decide),
   (c8_routing_noop cfg0 env0 _).2 _ (by decide) rfl tsType (by decide) (by decide)⟩

/-! ### C1 -/

/-- C1 (amended): at step `ENTER_AMOUNT`, a text whose parse succeeds
with a value that is not `<= 0` advances the dialog to
`ENTER_DESCRIPTION` with that value as the amount; a text whose parse
fails, or whose value is `<= 0`, is rejected with everything unchanged.
Because the code tests `amount <= 0` rather than `!(amount > 0)`, NaN
(for which both comparisons are false) is accepted, not rejected.  The
boundary facts: `"0"` is rejected, `"0.01"` is accepted, `"NaN"` is
accepted, and the hexadecimal and underscore-separated literal forms
`strconv.ParseFloat` also accepts parse here too (`"0x1p3"` is 8,
`"1_5"` is 15). -/
theorem c1_amount_validation (cfg : Config) (env : Env) (st : AppState) (m : Message)
    (ts : TransactionState) (hAuth : m.fromID = cfg.allowedUserID) (hCmd : m.command = "")
    (hLook : lookupState st.userStates m.fromID = some ts)
    (hStep : ts.step = "ENTER_AMOUNT") :
    (∀ v, parseFloat m.text = some v → v.le0 = false →
      handleMessage cfg env st m =
        ({ st with
           userStates :=
             (setState st.userStates m.fromID
               { ts with amount := v, step := "ENTER_DESCRIPTION" }) },
         [.sendMsg m.chatID "Enter a description for the transaction (max 100 characters)."])) ∧
    (parseFloat m.text = none ∨ (∃ v, parseFloat m.text = some v ∧ v.le0 = true) →
      handleMessage cfg env st m =
        (st, [.sendMsg m.chatID "Invalid amount. Please enter a positive number."])) ∧
    (parseFloat "0" = some (.finite ⟨0, 1⟩) ∧ (GoFloat.finite ⟨0, 1⟩).le0 = true) ∧
    (parseFloat "0.01" = some (.finite ⟨1, 100⟩) ∧ (GoFloat.finite ⟨1, 100⟩).le0 = false) ∧
    (parseFloat "NaN" = some .nan ∧ GoFloat.nan.le0 = false) ∧
    (parseFloat "0x1p3" = some (.finite ⟨8, 1⟩) ∧ (GoFloat.finite ⟨8, 1⟩).le0 = false) ∧
    (parseFloat "1_5" = some (.finite ⟨15, 1⟩) ∧ (GoFloat.finite ⟨15, 1⟩).le0 = false) := by
  have hne : ¬m.fromID ≠ cfg.allowedUserID := by simpa using hAuth
  refine ⟨?_, ?_, by decide, by decide, by decide, by decide, by decide⟩
  · intro v hParse hPos
    simp only [handleMessage, if_neg hne, hCmd, hLook, hStep]
    simp [processAmount, hParse, hPos]
  · intro hRej
    simp only [handleMessage, if_neg hne, hCmd, hLook, hStep]
    rcases hRej with hNone | ⟨v, hSome, hNeg⟩
    · simp [processAmount, hNone, setState_self st.userStates m.fromID ts hLook]
    · simp [processAmount, hSome, hNeg, setState_self st.userStates m.fromID ts hLook]

/-- Counterexample to C1 as stated: the text `"NaN"` parses with a nil
error and `NaN <= 0` is false, so the dialog advances to
`ENTER_DESCRIPTION` with amount NaN, although NaN does not satisfy
`a > 0` and the claim requires the step to remain `ENTER_AMOUNT`. -/
theorem c1_counterexample :
    (handleMessage cfg0 env0 { userStates := [(42, tsAmount)], store := [] }
        { fromID := 42, chatID := 5, text := "NaN", command := "" }).1.userStates =
      [(42, { tsAmount with amount := .nan, step := "ENTER_DESCRIPTION" })] ∧
    tsAmount.step = "ENTER_AMOUNT" := by
  constructor
  · rfl
  · rfl

/-- Witness for C1: a rejected `"0"` leaves everything unchanged,
an accepted `"0.01"` advances with that amount. -/
theorem c1_witness :
    (handleMessage cfg0 env0 { userStates := [(42, tsAmount)], store := [] }
        { fromID := 42, chatID := 5, text := "0", command := "" } =
      ({ userStates := [(42, tsAmount)], store := [] },
       [.sendMsg 5 "Invalid amount. Please enter a positive number."])) ∧
    (handleMessage cfg0 env0 { userStates := [(42, tsAmount)], store := [] }
        { fromID := 42, chatID := 5, text := "0.01", command := "" } =
      ({ userStates := setState [(42, tsAmount)] 42
           { tsAmount with amount := .finite ⟨1, 100⟩, step := "ENTER_DESCRIPTION" },
         store := [] },
       [.sendMsg 5 "Enter a description for the transaction (max 100 characters)."])) :=
  ⟨(c1_amount_validation cfg0 env0 { userStates := [(42, tsAmount)], store := [] }
      { fromID := 42, chatID := 5, text := "0", command := "" } tsAmount
      (by decide) rfl (by decide) rfl).2.1
     (Or.inr ⟨.finite ⟨0, 1⟩, by decide, by decide⟩),
   (c1_amount_validation cfg0 env0 { userStates := [(42, tsAmount)], store := [] }
      { fromID := 42, chatID := 5, text := "0.01", command := "" } tsAmount
      (by decide) rfl (by decide) rfl).1
     (.finite ⟨1, 100⟩) (by decide) (by decide)⟩

/-! ### C6 -/

/-- C6 (amended): when the store write fails (statement preparation or
insert execution), the user receives the corresponding failure message,
the store is unchanged, and the DialogState is not deleted: its step,
type, category and amount are unchanged, but its description field has
already been overwritten with the submitted text before the write was
attempted.  Resubmitting a description therefore retries the commit. -/
theorem c6_failure_preserves_dialog (cfg : Config) (env : Env) (st : AppState) (m : Message)
    (ts : TransactionState) (hAuth : m.fromID = cfg.allowedUserID) (hCmd : m.command = "")
    (hLook : lookupState st.userStates m.fromID = some ts)
    (hStep : ts.step = "ENTER_DESCRIPTION") (hLen : m.text.utf8ByteSize ≤ 100)
    (hFail : env.insertOutcome = .prepareError ∨ env.insertOutcome = .execError) :
    (handleMessage cfg env st m).1.store = st.store ∧
    (handleMessage cfg env st m).1.userStates =
      setState st.userStates ts.userID ({ ts with description := m.text }) ∧
    lookupState (handleMessage cfg env st m).1.userStates ts.userID =
      some ({ ts with description := m.text }) ∧
    (handleMessage cfg env st m).2 =
      [.sendMsg m.chatID (if env.insertOutcome = .prepareError then
        "Failed to prepare transaction." else "Failed to save transaction.")] := by
  have hne : ¬m.fromID ≠ cfg.allowedUserID := by simpa using hAuth
  have hgt : ¬m.text.utf8ByteSize > 100 := by omega
  simp only [handleMessage, if_neg hne, hCmd, hLook, hStep]
  rcases hFail with hF | hF <;>
    simp [processDescription, if_neg hgt, hF, lookupState_setState, hStep]

/-- Counterexample to C6 as stated: with a failing statement
preparation, submitting the description `"lunch"` over a dialog whose
description field is empty leaves a dialog whose description field now
equals `"lunch"` — a mutated field, where the claim asserts no field of
the DialogState is changed. -/
theorem c6_counterexample :
    lookupState (handleMessage cfg0 envPrepFail
        { userStates := [(42, tsDescr)], store := [] }
        { fromID := 42, chatID := 5, text := "lunch", command := "" }).1.userStates 42 =
      some ({ tsDescr with description := "lunch" }) ∧
    tsDescr.description = "" ∧ "lunch" ≠ "" := by
  refine ⟨rfl, rfl, by decide⟩

/-- Witness for C6: a failing insert execution keeps the dialog (with
the new description) and reports the generic failure. -/
theorem c6_witness :
    (handleMessage cfg0 ({ env0 with insertOutcome := .execError })
        { userStates := [(42, tsDescr)], store := [] }
        { fromID := 42, chatID := 5, text := "lunch", command := "" }).1.store = [] ∧
    (handleMessage cfg0 ({ env0 with insertOutcome := .execError })
        { userStates := [(42, tsDescr)], store := [] }
        { fromID := 42, chatID := 5, text := "lunch", command := "" }).1.userStates =
      setState [(42, tsDescr)] 42 ({ tsDescr with description := "lunch" }) ∧
    lookupState (handleMessage cfg0 ({ env0 with insertOutcome := .execError })
        { userStates := [(42, tsDescr)], store := [] }
        { fromID := 42, chatID := 5, text := "lunch", command := "" }).1.userStates 42 =
      some ({ tsDescr with description := "lunch" }) ∧
    (handleMessage cfg0 ({ env0 with insertOutcome := .execError })
        { userStates := [(42, tsDescr)], store := [] }
        { fromID := 42, chatID := 5, text := "lunch", command := "" }).2 =
      [.sendMsg 5 (if ({ env0 with insertOutcome := InsertOutcome.execError }).insertOutcome =
          InsertOutcome.prepareError then
        "Failed to prepare transaction." else "Failed to save transaction.")] := by
  have h := c6_failure_preserves_dialog cfg0 ({ env0 with insertOutcome := .execError })
    { userStates := [(42, tsDescr)], store := [] }
    { fromID := 42, chatID := 5, text := "lunch", command := "" } tsDescr
    (by decide) rfl (by decide) rfl (by decide) (Or.inr rfl)
  exact h

/-! ### C3 -/

/-- C3 (amended): at step `ENTER_DESCRIPTION` with a working store, Go's
`len` counts UTF-8 bytes, so a text of at most 100 bytes commits one row
with the accumulated type, category and amount and the submitted
description and deletes the dialog, while a text of more than 100 bytes
(in particular 101 ASCII characters) is rejected with everything
unchanged.  100 ASCII characters are 100 bytes, hence accepted. -/
theorem c3_description_bytes (cfg : Config) (env : Env) (st : AppState) (m : Message)
    (ts : TransactionState) (hAuth : m.fromID = cfg.allowedUserID) (hCmd : m.command = "")
    (hLook : lookupState st.userStates m.fromID = some ts)
    (hStep : ts.step = "ENTER_DESCRIPTION") (hOk : env.insertOutcome = .ok) :
    (m.text.utf8ByteSize ≤ 100 →
      (handleMessage cfg env st m).1.store =
        st.store ++ [committedRow ts m.text (dateTimeStr (env.now.sec + 7 * 60 * 60))] ∧
      lookupState (handleMessage cfg env st m).1.userStates ts.userID = none ∧
      (handleMessage cfg env st m).2 = [.sendMsg m.chatID "Transaction added successfully!"]) ∧
    (m.text.utf8ByteSize > 100 →
      handleMessage cfg env st m =
        (st, [.sendMsg m.chatID "Description too long. Please keep it under 100 characters."])) ∧
    (String.mk (List.replicate 100 'a')).utf8ByteSize = 100 ∧
    (String.mk (List.replicate 101 'a')).utf8ByteSize = 101 := by
  have hne : ¬m.fromID ≠ cfg.allowedUserID := by simpa using hAuth
  refine ⟨?_, ?_, by decide, by decide⟩
  · intro hLen
    have hgt : ¬m.text.utf8ByteSize > 100 := by omega
    simp only [handleMessage, if_neg hne, hCmd, hLook, hStep]
    simp [processDescription, if_neg hgt, hOk, lookupState_delState, committedRow]
  · intro hLen
    simp only [handleMessage, if_neg hne, hCmd, hLook, hStep]
    simp [processDescription, hLen]

/-- Counterexample to C3 as stated: a description of 51 two-byte
characters — 51 characters, well under the claimed 100-character limit —
is rejected, because the code compares the UTF-8 byte length (102) with
100. -/
theorem c3_counterexample :
    longDescr.length = 51 ∧
    handleMessage cfg0 env0 { userStates := [(42, tsDescr)], store := [] }
        { fromID := 42, chatID := 5, text := longDescr, command := "" } =
      ({ userStates := [(42, tsDescr)], store := [] },
       [.sendMsg 5 "Description too long. Please keep it under 100 characters."]) := by
  exact ⟨rfl, rfl⟩

/-- Witness for C3: a 100-byte description commits the row and clears
the dialog; a 101-byte one is rejected. -/
theorem c3_witness :
    ((handleMessage cfg0 env0 { userStates := [(42, tsDescr)], store := [] }
        { fromID := 42, chatID := 5, text := String.mk (List.replicate 100 'a'),
          command := "" }).1.store =
      [] ++ [committedRow tsDescr (String.mk (List.replicate 100 'a'))
        (dateTimeStr (env0.now.sec + 7 * 60 * 60))] ∧
      lookupState (handleMessage cfg0 env0 { userStates := [(42, tsDescr)], store := [] }
        { fromID := 42, chatID := 5, text := String.mk (List.replicate 100 'a'),
          command := "" }).1.userStates 42 = none ∧
      (handleMessage cfg0 env0 { userStates := [(42, tsDescr)], store := [] }
        { fromID := 42, chatID := 5, text := String.mk (List.replicate 100 'a'),
          command := "" }).2 = [.sendMsg 5 "Transaction added successfully!"]) ∧
    handleMessage cfg0 env0 { userStates := [(42, tsDescr)], store := [] }
        { fromID := 42, chatID := 5, text := String.mk (List.replicate 101 'a'),
          command := "" } =
      ({ userStates := [(42, tsDescr)], store := [] },
       [.sendMsg 5 "Description too long. Please keep it under 100 characters."]) :=
  ⟨(c3_description_bytes cfg0 env0 { userStates := [(42, tsDescr)], store := [] }
      { fromID := 42, chatID := 5, text := String.mk (List.replicate 100 'a'), command := "" }
      tsDescr (by decide) rfl (by decide) rfl rfl).1 (by decide),
   (c3_description_bytes cfg0 env0 { userStates := [(42, tsDescr)], store := [] }
      { fromID := 42, chatID := 5, text := String.mk (List.replicate 101 'a'), command := "" }
      tsDescr (by decide) rfl (by decide) rfl rfl).2.1 (by decide)⟩

/-! ### Summary-aggregation lemmas -/

theorem distinctTypes_foldl_nodup (rows : List Row) : ∀ acc : List String, acc.Nodup →
    (rows.foldl (fun acc r => if r.rowType ∈ acc then acc else acc ++ [r.rowType]) acc).Nodup := by
  induction rows with
  | nil => intro acc h; exact h
  | cons r rest ih =>
    intro acc h
    by_cases hm : r.rowType ∈ acc
    · simpa [hm] using ih acc h
    · have h2 : (acc ++ [r.rowType]).Nodup := by
        simp [List.nodup_append, h, hm]
      simpa [hm] using ih _ h2

theorem distinctTypes_foldl_mem (rows : List Row) : ∀ (acc : List String) (t : String),
    (t ∈ rows.foldl (fun acc r => if r.rowType ∈ acc then acc else acc ++ [r.rowType]) acc ↔
      t ∈ acc ∨ t ∈ rows.map Row.rowType) := by
  induction rows with
  | nil => simp
  | cons r rest ih =>
    intro acc t
    by_cases hm : r.rowType ∈ acc
    · simp only [List.foldl_cons, if_pos hm, ih, List.map_cons, List.mem_cons]
      constructor
      · rintro (h | h)
        · exact Or.inl h
        · exact Or.inr (Or.inr h)
      · rintro (h | h | h)
        · exact Or.inl h
        · exact Or.inl (h ▸ hm)
        · exact Or.inr h
    · simp only [List.foldl_cons, if_neg hm, ih, List.mem_append, List.mem_singleton,
        List.map_cons, List.mem_cons]
      tauto

theorem distinctTypes_nodup (rows : List Row) : (distinctTypes rows).Nodup :=
  distinctTypes_foldl_nodup rows [] List.nodup_nil

theorem mem_distinctTypes (rows : List Row) (t : String) :
    t ∈ distinctTypes rows ↔ t ∈ rows.map Row.rowType := by
  simpa using distinctTypes_foldl_mem rows [] t

theorem scanRow_foldl_map (f : String → GoFloat) : ∀ (ts : List String)
    (acc : GoFloat × GoFloat), ts.Nodup →
    (ts.map (fun t => (t, f t))).foldl scanRow acc =
      ((if "income" ∈ ts then f "income" else acc.1),
       (if "expense" ∈ ts then f "expense" else acc.2)) := by
  intro ts
  induction ts with
  | nil => intro acc h; simp
  | cons t rest ih =>
    intro acc hnd
    have htr : t ∉ rest := (List.nodup_cons.mp hnd).1
    have hndr : rest.Nodup := (List.nodup_cons.mp hnd).2
    by_cases hti : t = "income"
    · subst hti
      simp [scanRow, ih _ hndr, htr]
    · by_cases hte : t = "expense"
      · subst hte
        simp [scanRow, ih _ hndr, htr]
      · have hti' : ¬"income" = t := fun h => hti h.symm
        have hte' : ¬"expense" = t := fun h => hte h.symm
        simp [scanRow, hti, hte, hti', hte', ih _ hndr]

theorem summaryTotals_groupRows (rows : List Row) :
    summaryTotals (groupRows rows) = (sumAmounts rows "income", sumAmounts rows "expense") := by
  unfold summaryTotals groupRows
  rw [scanRow_foldl_map (sumAmounts rows) (distinctTypes rows) _ (distinctTypes_nodup rows)]
  have hzero : ∀ t : String, t ∉ distinctTypes rows →
      sumAmounts rows t = .finite ⟨0, 1⟩ := by
    intro t ht
    rw [mem_distinctTypes] at ht
    have hfil : rows.filter (fun r => r.rowType = t) = [] := by
      rw [List.filter_eq_nil_iff]
      intro r hr hct
      simp only [decide_eq_true_eq] at hct
      exact ht (List.mem_map.mpr ⟨r, hr, hct⟩)
    simp [sumAmounts, hfil]
  simp only [Prod.mk.injEq]
  refine ⟨?_, ?_⟩
  · by_cases h : "income" ∈ distinctTypes rows
    · simp [h]
    · simp [h, hzero _ h]
  · by_cases h : "expense" ∈ distinctTypes rows
    · simp [h]
    · simp [h, hzero _ h]

theorem sumAmounts_filterMonth (curMonth t : String) (store : List Row) :
    sumAmounts (filterMonth curMonth store) t = sumOfType curMonth t store := by
  simp only [sumAmounts, filterMonth, sumOfType, List.filter_filter]
  congr 1
  congr 1
  apply List.filter_congr
  intro r hr
  simp [Bool.and_comm]

/-! ### C10 -/

/-- C10: the summary scan's totals are exactly the sums of the
current-month amounts of type `income` and of type `expense`; a
current-month row of any other type string changes neither total (hence
neither the balance); and on an empty store both totals are the initial
`0.0`. -/
theorem c10_totals_exact_types (curMonth : String) (store : List Row) :
    summaryTotals (groupRows (filterMonth curMonth store)) =
      (sumOfType curMonth "income" store, sumOfType curMonth "expense" store) ∧
    (∀ r : Row, r.rowType ≠ "income" → r.rowType ≠ "expense" →
      summaryTotals (groupRows (filterMonth curMonth (store ++ [r]))) =
        summaryTotals (groupRows (filterMonth curMonth store))) ∧
    summaryTotals (groupRows (filterMonth curMonth ([] : List Row))) =
      (.finite ⟨0, 1⟩, .finite ⟨0, 1⟩) := by
  have hchar : ∀ s : List Row, summaryTotals (groupRows (filterMonth curMonth s)) =
      (sumOfType curMonth "income" s, sumOfType curMonth "expense" s) := by
    intro s
    rw [summaryTotals_groupRows, sumAmounts_filterMonth, sumAmounts_filterMonth]
  refine ⟨hchar store, ?_, by rw [hchar]; rfl⟩
  intro r h1 h2
  rw [hchar, hchar]
  have happ : ∀ t : String, r.rowType ≠ t →
      sumOfType curMonth t (store ++ [r]) = sumOfType curMonth t store := by
    intro t ht
    simp [sumOfType, List.filter_append, List.filter_cons, ht]
  rw [happ _ h1, happ _ h2]

/-- Witness for C10: on the example store, the characterization holds
and a same-month row of type `savings` changes nothing. -/
theorem c10_witness :
    summaryTotals (groupRows (filterMonth "10" exampleStore)) =
      (sumOfType "10" "income" exampleStore, sumOfType "10" "expense" exampleStore) ∧
    summaryTotals (groupRows (filterMonth "10" (exampleStore ++ [rowOther]))) =
      summaryTotals (groupRows (filterMonth "10" exampleStore)) :=
  ⟨(c10_totals_exact_types "10" exampleStore).1,
   (c10_totals_exact_types "10" exampleStore).2.1 rowOther (by decide) (by decide)⟩

/-! ### C7 -/

/-- C7: with a working store, the summary keeps the application state
unchanged and sends one message whose totals are the sums of the
current-UTC-month rows of type `income` and `expense`, whose balance is
their difference, rendered to two decimal places under the local-time
month/year header; on the example store this renders 100.00, 40.00,
60.00, and on an empty store 0.00, 0.00, 0.00. -/
theorem c7_monthly_summary (env : Env) (chatID : ℤ) (st : AppState)
    (hQ : env.querySucceeds = true) :
    showSummary env chatID st =
      (st, [.sendMsg chatID
        ("Monthly Summary Report for " ++ monthYearStr (env.now.sec + env.localOffset) ++
         ":\n\n" ++
         "Total Income: " ++ fmt2 (sumOfType (month2Str env.now.sec) "income" st.store) ++
         "\nTotal Expense: " ++ fmt2 (sumOfType (month2Str env.now.sec) "expense" st.store) ++
         "\n\nBalance: " ++
         fmt2 ((sumOfType (month2Str env.now.sec) "income" st.store).sub
           (sumOfType (month2Str env.now.sec) "expense" st.store)))]) ∧
    (showSummary env0 9 { userStates := [], store := exampleStore }).2 =
      [.sendMsg 9 ("Monthly Summary Report for October 2025:\n\n" ++
        "Total Income: 100.00\nTotal Expense: 40.00\n\nBalance: 60.00")] ∧
    (showSummary env0 9 { userStates := [], store := [] }).2 =
      [.sendMsg 9 ("Monthly Summary Report for October 2025:\n\n" ++
        "Total Income: 0.00\nTotal Expense: 0.00\n\nBalance: 0.00")] := by
  refine ⟨?_, by rfl, by rfl⟩
  simp only [showSummary, hQ, if_true, summaryTotals_groupRows, sumAmounts_filterMonth]

/-- Witness for C7: the summary of the example store under the concrete
environment. -/
theorem c7_witness :
    showSummary env0 9 { userStates := [], store := exampleStore } =
      ({ userStates := [], store := exampleStore }, [.sendMsg 9
        ("Monthly Summary Report for " ++ monthYearStr (env0.now.sec + env0.localOffset) ++
         ":\n\n" ++
         "Total Income: " ++ fmt2 (sumOfType (month2Str env0.now.sec) "income" exampleStore) ++
         "\nTotal Expense: " ++ fmt2 (sumOfType (month2Str env0.now.sec) "expense" exampleStore) ++
         "\n\nBalance: " ++
         fmt2 ((sumOfType (month2Str env0.now.sec) "income" exampleStore).sub
           (sumOfType (month2Str env0.now.sec) "expense" exampleStore)))]) :=
  (c7_monthly_summary env0 9 { userStates := [], store := exampleStore } rfl).1

/-! ### C2 -/

theorem lookup_set_wellTyped (cfg : Config) (m : StateMap) (k : ℤ) (v : TransactionState)
    (hm : ∀ uid ts, lookupState m uid = some ts → stateWellTyped cfg ts = true)
    (hv : stateWellTyped cfg v = true) :
    ∀ uid ts, lookupState (setState m k v) uid = some ts → stateWellTyped cfg ts = true := by
  intro uid ts h
  rw [lookupState_setState] at h
  by_cases he : uid = k
  · rw [if_pos he] at h
    cases h
    exact hv
  · rw [if_neg he] at h
    exact hm uid ts h

theorem stateWellTyped_fields (cfg : Config) (ts : TransactionState)
    (hts : stateWellTyped cfg ts = true)
    (hstep : ts.step = "ENTER_AMOUNT" ∨ ts.step = "ENTER_DESCRIPTION") :
    (ts.transactionType = "income" ∨ ts.transactionType = "expense") ∧
      ts.category ∈ cfg.categories := by
  rcases hstep with h | h <;> simp [stateWellTyped, h] at hts <;> exact hts

theorem processAmount_wellTyped (cfg : Config) (m : Message) (ts : TransactionState)
    (hts : stateWellTyped cfg ts = true) (hstep : ts.step = "ENTER_AMOUNT") :
    stateWellTyped cfg (processAmount m ts).1 = true := by
  have hf := stateWellTyped_fields cfg ts hts (Or.inl hstep)
  unfold processAmount
  split
  · exact hts
  next v heq =>
    by_cases hv : v.le0
    · simp only [if_pos hv]
      exact hts
    · simp only [if_neg hv]
      simp [stateWellTyped, hf.1, hf.2]

theorem descriptionUpdate_wellTyped (cfg : Config) (ts : TransactionState) (text : String)
    (hts : stateWellTyped cfg ts = true) :
    stateWellTyped cfg ({ ts with description := text }) = true := by
  simpa [stateWellTyped] using hts

theorem committedRow_wellTyped (cfg : Config) (ts : TransactionState) (text createdAt : String)
    (hts : stateWellTyped cfg ts = true) (hstep : ts.step = "ENTER_DESCRIPTION") :
    rowWellTyped cfg (committedRow ts text createdAt) = true := by
  have hf := stateWellTyped_fields cfg ts hts (Or.inr hstep)
  simp [rowWellTyped, committedRow, hf.1, hf.2]

theorem processTransactionType_wellTyped (cfg : Config) (c : CallbackQuery)
    (ts : TransactionState) (hdata : c.data = "income" ∨ c.data = "expense") :
    stateWellTyped cfg (processTransactionType cfg c ts).1 = true := by
  simp [processTransactionType, stateWellTyped, hdata]

theorem processCategory_wellTyped (cfg : Config) (c : CallbackQuery) (ts : TransactionState)
    (hts : stateWellTyped cfg ts = true) (hstep : ts.step = "SELECT_CATEGORY")
    (hdata : c.data ∈ cfg.categories) :
    stateWellTyped cfg (processCategory c ts).1 = true := by
  simp [stateWellTyped, hstep] at hts
  simp [processCategory, stateWellTyped, hts, hdata]

theorem typedInvariant_step (cfg : Config) (env : Env) (st : AppState) (e : Event)
    (hInv : typedInvariant cfg st) (hPay : payloadFromButtons cfg st e = true) :
    typedInvariant cfg (stepEvent cfg env st e).1 := by
  obtain ⟨hSt, hRow⟩ := hInv
  have hshow : ∀ cid : ℤ, (showSummary env cid st).1 = st := by
    intro cid
    unfold showSummary
    by_cases hq : env.querySucceeds <;> simp [hq]
  have hlat : ∀ cid : ℤ, (getLatestReport env cid st).1 = st := by
    intro cid
    unfold getLatestReport
    cases env.latestReport <;> rfl
  have hweek : ∀ cid : ℤ, (getWeeklyExpenseReport env cid st).1 = st := by
    intro cid
    unfold getWeeklyExpenseReport
    cases env.weeklyReport <;> rfl
  cases e with
  | msg m =>
    simp only [stepEvent, handleMessage]
    by_cases hAuth : m.fromID ≠ cfg.allowedUserID
    · rw [if_pos hAuth]
      exact ⟨hSt, hRow⟩
    · rw [if_neg hAuth]
      split
      · -- add
        refine ⟨?_, hRow⟩
        exact lookup_set_wellTyped cfg _ _ _ hSt rfl
      · rw [hshow]
        exact ⟨hSt, hRow⟩
      · rw [hlat]
        exact ⟨hSt, hRow⟩
      · rw [hweek]
        exact ⟨hSt, hRow⟩
      · -- free text
        split
        next ts hlook =>
          have hts := hSt m.fromID ts hlook
          split
          next hstep =>
            exact ⟨lookup_set_wellTyped cfg _ _ _ hSt
              (processAmount_wellTyped cfg m ts hts hstep), hRow⟩
          next hstep =>
            unfold processDescription
            by_cases hlen : m.text.utf8ByteSize > 100
            · rw [if_pos hlen]
              exact ⟨hSt, hRow⟩
            · rw [if_neg hlen]
              have hts1 := descriptionUpdate_wellTyped cfg ts m.text hts
              split
              · exact ⟨lookup_set_wellTyped cfg _ _ _ hSt hts1, hRow⟩
              · exact ⟨lookup_set_wellTyped cfg _ _ _ hSt hts1, hRow⟩
              · constructor
                · intro uid ts' h
                  rw [lookupState_delState] at h
                  by_cases he : uid = ts.userID
                  · rw [if_pos he] at h
                    cases h
                  · rw [if_neg he] at h
                    exact lookup_set_wellTyped cfg _ _ _ hSt hts1 uid ts' h
                · intro r hr
                  rw [List.mem_append] at hr
                  rcases hr with hr | hr
                  · exact hRow r hr
                  · rw [List.mem_singleton] at hr
                    subst hr
                    exact committedRow_wellTyped cfg ts m.text _ hts hstep
          next =>
            exact ⟨hSt, hRow⟩
        next =>
          exact ⟨hSt, hRow⟩
  | callback c =>
    simp only [stepEvent, handleCallbackQuery]
    by_cases hAuth : c.fromID ≠ cfg.allowedUserID
    · rw [if_pos hAuth]
      exact ⟨hSt, hRow⟩
    · rw [if_neg hAuth]
      split
      next =>
        exact ⟨hSt, hRow⟩
      next ts hlook =>
        have hts := hSt c.fromID ts hlook
        simp only [payloadFromButtons, hlook, Bool.and_eq_true] at hPay
        split
        next hstep =>
          have hdata : c.data = "income" ∨ c.data = "expense" := by
            have := hPay.1
            simp [hstep] at this
            exact this
          exact ⟨lookup_set_wellTyped cfg _ _ _ hSt
            (processTransactionType_wellTyped cfg c ts hdata), hRow⟩
        next hstep =>
          have hdata : c.data ∈ cfg.categories := by
            have := hPay.2
            simp [hstep] at this
            exact this
          exact ⟨lookup_set_wellTyped cfg _ _ _ hSt
            (processCategory_wellTyped cfg c ts hts hstep hdata), hRow⟩
        next =>
          exact ⟨hSt, hRow⟩

/-- C2 (amended): the handlers perform no validation of their own — they
record the callback payload verbatim — but whenever every callback
payload delivered along a trace is one of the button values the bot
presented for the receiving step, every row ever persisted from the
empty initial state has type `income` or `expense` and a configured
category. -/
theorem c2_payloads_invariant (cfg : Config) (evs : List (Env × Event))
    (hPay : payloadsFromButtons cfg { userStates := [], store := [] } evs = true) :
    ∀ r ∈ (runEvents cfg { userStates := [], store := [] } evs).store,
      rowWellTyped cfg r = true := by
  have haux : ∀ (l : List (Env × Event)) (st : AppState), typedInvariant cfg st →
      payloadsFromButtons cfg st l = true → typedInvariant cfg (runEvents cfg st l) := by
    intro l
    induction l with
    | nil =>
      intro st h _
      exact h
    | cons p rest ih =>
      intro st h hp
      obtain ⟨env, e⟩ := p
      simp only [payloadsFromButtons, Bool.and_eq_true] at hp
      exact ih _ (typedInvariant_step cfg env st e h hp.1) hp.2
  have hinit : typedInvariant cfg { userStates := [], store := [] } := by
    constructor
    · intro uid ts h
      simp [lookupState] at h
    · intro r h
      simp at h
  exact (haux evs _ hinit hPay).2

/-- Counterexample to C2 as stated: a callback payload `"banana"`
delivered at step `SELECT_TYPE` is recorded verbatim into the
DialogState as the transaction type, although it is outside
`{income, expense}`. -/
theorem c2_counterexample :
    (handleCallbackQuery cfg0 env0 { userStates := [(42, tsType)], store := [] }
        { fromID := 42, chatID := 5, messageID := 9, data := "banana" }).1.userStates =
      [(42, { tsType with transactionType := "banana", step := "SELECT_CATEGORY" })] ∧
    ¬("banana" = "income" ∨ "banana" = "expense") :=
  ⟨rfl, by decide⟩

/-- Witness for C2: the five-event complete dialog has button-only
payloads, and the one row it persists is well-typed. -/
theorem c2_witness :
    payloadsFromButtons cfg0 { userStates := [], store := [] } traceEvents = true ∧
    rowWellTyped cfg0
      { rowType := "income", category := "Food", amount := .finite ⟨125, 10⟩,
        description := "lunch",
        createdAt := dateTimeStr (env0.now.sec + 7 * 60 * 60) } = true :=
  ⟨by decide,
   c2_payloads_invariant cfg0 traceEvents (by decide)
     { rowType := "income", category := "Food", amount := .finite ⟨125, 10⟩,
       description := "lunch",
       createdAt := dateTimeStr (env0.now.sec + 7 * 60 * 60) } (by decide)⟩

/-! ### C9 -/

theorem digitCh_mem (n : ℕ) :
    digitCh n ∈ ['0', '1', '2', '3', '4', '5', '6', '7', '8', '9'] := by
  have h : n % 10 = 0 ∨ n % 10 = 1 ∨ n % 10 = 2 ∨ n % 10 = 3 ∨ n % 10 = 4 ∨ n % 10 = 5 ∨
      n % 10 = 6 ∨ n % 10 = 7 ∨ n % 10 = 8 ∨ n % 10 = 9 := by omega
  unfold digitCh
  rcases h with h | h | h | h | h | h | h | h | h | h <;> rw [h] <;> decide

theorem natDigits_chars (n : ℕ) :
    ∀ c ∈ natDigits n, c ∈ ['0', '1', '2', '3', '4', '5', '6', '7', '8', '9'] := by
  induction n using Nat.strong_induction_on with
  | _ n ih =>
    intro c hc
    rw [natDigits_eq] at hc
    by_cases h10 : n < 10
    · rw [if_pos h10] at hc
      rw [List.mem_singleton] at hc
      subst hc
      exact digitCh_mem n
    · rw [if_neg h10] at hc
      rw [List.mem_append] at hc
      rcases hc with hc | hc
      · exact ih (n / 10) (Nat.div_lt_self (by omega) (by omega)) c hc
      · rw [List.mem_singleton] at hc
        subst hc
        exact digitCh_mem n

theorem natDigits_length_le (k : ℕ) : ∀ n, n < 10 ^ (k + 1) → (natDigits n).length ≤ k + 1 := by
  induction k with
  | zero =>
    intro n h
    have h10 : n < 10 := by simpa using h
    rw [natDigits_eq, if_pos h10]
    simp
  | succ k ih =>
    intro n h
    by_cases h10 : n < 10
    · rw [natDigits_eq, if_pos h10]
      simp
    · rw [natDigits_eq, if_neg h10]
      have hdiv : n / 10 < 10 ^ (k + 1) := by
        rw [Nat.div_lt_iff_lt_mul (by omega : (0 : ℕ) < 10)]
        calc n < 10 ^ (k + 1 + 1) := h
          _ = 10 ^ (k + 1) * 10 := by rw [pow_succ]
      have hrec := ih (n / 10) hdiv
      simp only [List.length_append, List.length_cons, List.length_nil]
      omega

theorem padNat_length (w n : ℕ) (h : (natDigits n).length ≤ w) : (padNat w n).length = w := by
  simp only [padNat, List.length_append, List.length_replicate]
  omega

theorem padNat_chars (w n : ℕ) :
    ∀ c ∈ padNat w n, c ∈ ['0', '1', '2', '3', '4', '5', '6', '7', '8', '9'] := by
  intro c hc
  rw [padNat, List.mem_append] at hc
  rcases hc with hc | hc
  · rw [List.mem_replicate] at hc
    rw [hc.2]
    decide
  · exact natDigits_chars n c hc

theorem yearChars_chars (y : ℤ) :
    ∀ c ∈ yearChars y, c ∈ ['0', '1', '2', '3', '4', '5', '6', '7', '8', '9', '-'] := by
  have hsub : ∀ c ∈ ['0', '1', '2', '3', '4', '5', '6', '7', '8', '9'],
      c ∈ ['0', '1', '2', '3', '4', '5', '6', '7', '8', '9', '-'] := by decide
  intro c hc
  unfold yearChars at hc
  by_cases hy : y < 0
  · rw [if_pos hy] at hc
    rcases List.mem_cons.mp hc with hc | hc
    · rw [hc]; decide
    · exact hsub c (padNat_chars 4 y.natAbs c hc)
  · rw [if_neg hy] at hc
    exact hsub c (padNat_chars 4 y.toNat c hc)

/-- The fully applied form of `dateTimeStr`. -/
theorem dateTimeStr_def (t : ℤ) :
    dateTimeStr t = String.mk (yearChars (yearOf t) ++
      '-' :: padNat 2 (monthOfSec t) ++ '-' :: padNat 2 (dayOfSec t) ++
      ' ' :: padNat 2 ((t % 86400).toNat / 3600) ++
      ':' :: padNat 2 ((t % 86400).toNat % 3600 / 60) ++
      ':' :: padNat 2 ((t % 86400).toNat % 60)) := rfl

theorem yearOf_eq (t : ℤ) : yearOf t =
    (t / 86400 + 719468) / 146097 * 400 + yoeOf (t / 86400) +
      (if (if mpOf (t / 86400) < 10 then mpOf (t / 86400) + 3
           else mpOf (t / 86400) - 9) ≤ 2 then 1 else 0) := rfl

theorem monthOfSec_eq (t : ℤ) : monthOfSec t =
    (if mpOf (t / 86400) < 10 then mpOf (t / 86400) + 3 else mpOf (t / 86400) - 9) := rfl

theorem dayOfSec_eq (t : ℤ) : dayOfSec t =
    doyOf (t / 86400) - (153 * mpOf (t / 86400) + 2) / 5 + 1 := rfl

/-- Field bounds of the civil decomposition over the four-digit-year
range of instants. -/
theorem civil_bounds (t : ℤ) (h0 : 0 ≤ t) (h1 : t < 253402300800) :
    0 ≤ yearOf t ∧ yearOf t < 10000 ∧ monthOfSec t ≤ 12 ∧ dayOfSec t ≤ 31 := by
  rw [yearOf_eq, monthOfSec_eq, dayOfSec_eq]
  unfold mpOf doyOf yoeOf doeOf
  refine ⟨?_, ?_, ?_, ?_⟩ <;> first
    | omega
    | (split_ifs <;> omega)

/-- Every character of a rendered timestamp is a digit or one of the
three separators `-`, space, `:`; in particular there is no decimal
point, hence no fractional-second part. -/
theorem dateTimeStr_chars (t : ℤ) :
    ∀ c ∈ (dateTimeStr t).toList,
      c ∈ ['0', '1', '2', '3', '4', '5', '6', '7', '8', '9', '-', ' ', ':'] := by
  have hsubY : ∀ c ∈ ['0', '1', '2', '3', '4', '5', '6', '7', '8', '9', '-'],
      c ∈ ['0', '1', '2', '3', '4', '5', '6', '7', '8', '9', '-', ' ', ':'] := by decide
  have hsubD : ∀ c ∈ ['0', '1', '2', '3', '4', '5', '6', '7', '8', '9'],
      c ∈ ['0', '1', '2', '3', '4', '5', '6', '7', '8', '9', '-', ' ', ':'] := by decide
  intro c hc
  rw [dateTimeStr_def] at hc
  have hc2 : c ∈ yearChars (yearOf t) ++
      '-' :: padNat 2 (monthOfSec t) ++ '-' :: padNat 2 (dayOfSec t) ++
      ' ' :: padNat 2 ((t % 86400).toNat / 3600) ++
      ':' :: padNat 2 ((t % 86400).toNat % 3600 / 60) ++
      ':' :: padNat 2 ((t % 86400).toNat % 60) := hc
  rcases List.mem_append.mp hc2 with h5 | h5
  rotate_left
  · rcases List.mem_cons.mp h5 with h | h
    · rw [h]; decide
    · exact hsubD c (padNat_chars 2 ((t % 86400).toNat % 60) c h)
  rcases List.mem_append.mp h5 with h4 | h4
  rotate_left
  · rcases List.mem_cons.mp h4 with h | h
    · rw [h]; decide
    · exact hsubD c (padNat_chars 2 ((t % 86400).toNat % 3600 / 60) c h)
  rcases List.mem_append.mp h4 with h3 | h3
  rotate_left
  · rcases List.mem_cons.mp h3 with h | h
    · rw [h]; decide
    · exact hsubD c (padNat_chars 2 ((t % 86400).toNat / 3600) c h)
  rcases List.mem_append.mp h3 with h2 | h2
  rotate_left
  · rcases List.mem_cons.mp h2 with h | h
    · rw [h]; decide
    · exact hsubD c (padNat_chars 2 (dayOfSec t) c h)
  rcases List.mem_append.mp h2 with h1 | h1
  · exact hsubY c (yearChars_chars (yearOf t) c h1)
  · rcases List.mem_cons.mp h1 with h | h
    · rw [h]; decide
    · exact hsubD c (padNat_chars 2 (monthOfSec t) c h)

/-- Over the four-digit-year range, a rendered timestamp has the exact
`YYYY-MM-DD HH:MM:SS` width of 19 characters. -/
theorem dateTimeStr_length (t : ℤ) (h0 : 0 ≤ t) (h1 : t < 253402300800) :
    (dateTimeStr t).length = 19 := by
  obtain ⟨hy0, hy1, hm, hd⟩ := civil_bounds t h0 h1
  have hsod : (t % 86400).toNat < 86400 := by omega
  have hlen2 : ∀ n : ℕ, n < 100 → (padNat 2 n).length = 2 := by
    intro n hn
    exact padNat_length 2 n (natDigits_length_le 1 n (by omega))
  have hyearLen : (yearChars (yearOf t)).length = 4 := by
    unfold yearChars
    rw [if_neg (by omega)]
    exact padNat_length 4 (yearOf t).toNat (natDigits_length_le 3 (yearOf t).toNat (by omega))
  rw [dateTimeStr_def]
  rw [show ∀ l : List Char, (String.mk l).length = l.length from fun l => rfl]
  simp only [List.length_append, List.length_cons, hyearLen,
    hlen2 (monthOfSec t) (by omega), hlen2 (dayOfSec t) (by omega),
    hlen2 ((t % 86400).toNat / 3600) (by omega),
    hlen2 ((t % 86400).toNat % 3600 / 60) (by omega),
    hlen2 ((t % 86400).toNat % 60) (by omega)]

/-- C9: a successful commit appends exactly one row whose `created_at`
is the wall-clock instant shifted to the fixed UTC+7 zone and rendered
at whole-second precision; the commit is independent of the clock's
nanosecond component, the rendered string contains only digits and the
`-`, space, `:` separators (no `.`, hence no fractional seconds), and
within the four-digit-year range its length is exactly the 19 characters
of the `2006-01-02 15:04:05` layout. -/
theorem c9_created_at_format (cfg : Config) (env : Env) (st : AppState) (m : Message)
    (ts : TransactionState) (hAuth : m.fromID = cfg.allowedUserID) (hCmd : m.command = "")
    (hLook : lookupState st.userStates m.fromID = some ts)
    (hStep : ts.step = "ENTER_DESCRIPTION") (hLen : m.text.utf8ByteSize ≤ 100)
    (hOk : env.insertOutcome = .ok) :
    (handleMessage cfg env st m).1.store =
      st.store ++ [committedRow ts m.text (dateTimeStr (env.now.sec + 7 * 60 * 60))] ∧
    (∀ n : ℕ, processDescription ({ env with now := { env.now with nsec := n } }) m ts st =
      processDescription env m ts st) ∧
    (∀ c ∈ (dateTimeStr (env.now.sec + 7 * 60 * 60)).toList,
      c ∈ ['0', '1', '2', '3', '4', '5', '6', '7', '8', '9', '-', ' ', ':']) ∧
    ('.' ∉ (dateTimeStr (env.now.sec + 7 * 60 * 60)).toList) ∧
    (0 ≤ env.now.sec + 7 * 60 * 60 → env.now.sec + 7 * 60 * 60 < 253402300800 →
      (dateTimeStr (env.now.sec + 7 * 60 * 60)).length = 19) := by
  have hne : ¬m.fromID ≠ cfg.allowedUserID := by simpa using hAuth
  have hgt : ¬m.text.utf8ByteSize > 100 := by omega
  refine ⟨?_, fun n => rfl, dateTimeStr_chars _, ?_, dateTimeStr_length _⟩
  · simp only [handleMessage, if_neg hne, hCmd, hLook, hStep]
    simp [processDescription, if_neg hgt, hOk, committedRow]
  · intro hdot
    have := dateTimeStr_chars (env.now.sec + 7 * 60 * 60) '.' hdot
    simp at this

/-- Witness for C9: the concrete commit of the running example stores
`dateTimeStr` of the UTC+7-shifted clock, ignores a changed nanosecond
component, and that string has no decimal point and is 19 characters
long. -/
theorem c9_witness :
    (handleMessage cfg0 env0 { userStates := [(42, tsDescr)], store := [] }
        { fromID := 42, chatID := 5, text := "lunch", command := "" }).1.store =
      [] ++ [committedRow tsDescr "lunch" (dateTimeStr (env0.now.sec + 7 * 60 * 60))] ∧
    processDescription ({ env0 with now := { env0.now with nsec := 5 } })
        { fromID := 42, chatID := 5, text := "lunch", command := "" } tsDescr
        { userStates := [(42, tsDescr)], store := [] } =
      processDescription env0 { fromID := 42, chatID := 5, text := "lunch", command := "" }
        tsDescr { userStates := [(42, tsDescr)], store := [] } ∧
    ('.' ∉ (dateTimeStr (env0.now.sec + 7 * 60 * 60)).toList) ∧
    (dateTimeStr (env0.now.sec + 7 * 60 * 60)).length = 19 :=
  have h := c9_created_at_format cfg0 env0 { userStates := [(42, tsDescr)], store := [] }
    { fromID := 42, chatID := 5, text := "lunch", command := "" } tsDescr
    (by decide) rfl (by decide) rfl (by decide) rfl
  ⟨h.1, h.2.1 5, h.2.2.2.1, h.2.2.2.2 (by decide) (by decide)⟩

end Ayunda
